import Mathlib

/-
Verification development for the aurora desktop audio player.

The embedding translates the Rust sources directly:
  aurora-audio/src/lib.rs   : AudioEngine (rodio sink wrapper)
  aurora-player/src/main.rs : the playback coordination closures and poll loop
  aurora-core/src/lib.rs    : LibraryManager (sqlite catalog) and directory scan
  is_audio_file             : the extension filter

Modelling conventions:
  - The filesystem and decoder are an oracle (opens : String -> Bool) telling
    whether File::open plus Decoder::new succeed for a path, and
    (meta : String -> Option TagData) telling what lofty reads from a file.
  - The rodio Sink is SinkState: busy models (not Sink::empty()), paused the
    internal pause flag, volume the stored gain.  Rodio stores the gain as
    given; it performs no clamping.
  - All mutations of PlayerState happen under one Mutex in the source, so an
    interleaving of user commands, poll iterations and track completions is
    modelled as a sequence of atomic events (Ev) applied by stepEv.
  - The fields adv_fwd_count, adv_bwd_count and edge_count of AppState are
    ghost instrumentation: they increment exactly at the source lines that
    mutate current_index forward, mutate it backward, and observe a falling
    busy edge in the poll loop.  No source behaviour depends on them.
  - SQLite semantics used by LibraryManager: INSERT OR IGNORE keeps an
    existing row; INSERT OR REPLACE deletes every row that conflicts on a
    UNIQUE column and inserts a new row, and since the id column is absent
    from the column list the new row receives a fresh AUTOINCREMENT id.
-/

/-- Catalog entry, from struct Track in aurora-core/src/lib.rs. -/
structure Track where
  id : Int
  path : String
  title : String
  artist : String
  album : String
  duration : Nat
  track_number : Option Nat
  year : Option Nat
  genre : Option String
deriving Repr, DecidableEq

instance : Inhabited Track :=
  ⟨{ id := 0, path := "", title := "", artist := "", album := "", duration := 0,
     track_number := none, year := none, genre := none }⟩

/-- State of the rodio Sink owned by AudioEngine.  busy models the negation
of Sink::empty(), paused the pause flag, volume the stored gain. -/
structure SinkState where
  busy : Bool
  paused : Bool
  volume : Rat
deriving Repr, DecidableEq

/-- Sink right after AudioEngine::new: empty queue, not paused, gain 1. -/
def initSink : SinkState := { busy := false, paused := false, volume := 1 }

/-- Helper for trim_start_matches: removes every leading occurrence of the
seven characters of the file scheme. -/
def stripFileUriChars : List Char → List Char
  | 'f' :: 'i' :: 'l' :: 'e' :: ':' :: '/' :: '/' :: rest => stripFileUriChars rest
  | l => l

/-- uri.trim_start_matches of the file scheme, from AudioEngine::play_file. -/
def stripFileUri (uri : String) : String := String.mk (stripFileUriChars uri.data)

/-- AudioEngine::play_file.  File::open and Decoder::new are the oracle; they
run before the sink is touched, so on failure the sink is unchanged.  On
success the current queue is stopped and the new source is appended and
played, leaving one playing source: busy and not paused. -/
def play_file (opens : String → Bool) (sink : SinkState) (uri : String) :
    Except String SinkState :=
  let path := stripFileUri uri
  if opens path then
    Except.ok { sink with busy := true, paused := false }
  else
    Except.error ("failed to open " ++ path)

/-- AudioEngine::pause. -/
def engine_pause (sink : SinkState) : SinkState := { sink with paused := true }

/-- AudioEngine::resume (Sink::play). -/
def engine_resume (sink : SinkState) : SinkState := { sink with paused := false }

/-- AudioEngine::set_volume: stores the gain exactly as passed, as rodio
Sink::set_volume does.  The source performs no clamping. -/
def set_volume (sink : SinkState) (volume : Rat) : SinkState :=
  { sink with volume := volume }

/-- AudioEngine::is_busy: the queue is nonempty. -/
def is_busy (sink : SinkState) : Bool := sink.busy

/-- Combined state of main.rs: the Mutex guarded PlayerState (tracks and
current_index), the sink, the is_paused variable captured by on_play_pause,
the was_playing local of the poll loop, and ghost advance counters. -/
structure AppState where
  tracks : List Track
  current_index : Nat
  sink : SinkState
  is_paused : Bool
  was_playing : Bool
  adv_fwd_count : Nat
  adv_bwd_count : Nat
  edge_count : Nat
deriving Repr, DecidableEq

/-- The state built in main before any callback runs: cursor 0, fresh sink,
not paused, was_playing false, ghost counters zero. -/
def mkAppState (tracks : List Track) : AppState :=
  { tracks := tracks, current_index := 0, sink := initSink,
    is_paused := false, was_playing := false,
    adv_fwd_count := 0, adv_bwd_count := 0, edge_count := 0 }

/-- Console and log output emitted by the closures. -/
inductive Out where
  | println (msg : String)
  | logError (msg : String)
deriving Repr, DecidableEq

/-- The on_track_selected closure: always prints, then under the lock checks
the index, sets the cursor, and dispatches; a dispatch failure is logged and
the closure returns with the cursor already moved.  An out of range index is
ignored with no error output.  UI and theme updates are external. -/
def on_track_selected (opens : String → Bool) (s : AppState) (index : Nat) :
    AppState × List Out :=
  let outs := [Out.println ("UI: Track selected at index " ++ toString index)]
  if index < s.tracks.length then
    let s1 := { s with current_index := index }
    let track := s1.tracks.getD index default
    let uri := "file://" ++ track.path
    match play_file opens s1.sink uri with
    | Except.error e => (s1, outs ++ [Out.logError ("Failed to play selected track: " ++ e)])
    | Except.ok sk => ({ s1 with sink := sk }, outs)
  else (s, outs)

/-- The on_play_pause closure: toggles the captured is_paused flag and calls
pause or resume on the engine; there is no emptiness check. -/
def on_play_pause (s : AppState) : AppState :=
  if s.is_paused then
    { s with sink := engine_resume s.sink, is_paused := false }
  else
    { s with sink := engine_pause s.sink, is_paused := true }

/-- The on_next closure: returns at once on an empty playlist, otherwise
advances the cursor with wraparound, prints, and dispatches, discarding any
dispatch error.  The ghost forward counter records the advance. -/
def on_next (opens : String → Bool) (s : AppState) : AppState × List Out :=
  if s.tracks.isEmpty then (s, [])
  else
    let idx := (s.current_index + 1) % s.tracks.length
    let s1 := { s with current_index := idx, adv_fwd_count := s.adv_fwd_count + 1 }
    let track := s1.tracks.getD idx default
    let uri := "file://" ++ track.path
    let outs := [Out.println ("Playing Next: " ++ uri)]
    match play_file opens s1.sink uri with
    | Except.error _ => (s1, outs)
    | Except.ok sk => ({ s1 with sink := sk }, outs)

/-- The on_prev closure: returns at once on an empty playlist, otherwise
moves the cursor backward with wraparound, prints, and dispatches, discarding
any dispatch error.  The ghost backward counter records the advance. -/
def on_prev (opens : String → Bool) (s : AppState) : AppState × List Out :=
  if s.tracks.isEmpty then (s, [])
  else
    let idx := if s.current_index = 0 then s.tracks.length - 1 else s.current_index - 1
    let s1 := { s with current_index := idx, adv_bwd_count := s.adv_bwd_count + 1 }
    let track := s1.tracks.getD idx default
    let uri := "file://" ++ track.path
    let outs := [Out.println ("Playing Prev: " ++ uri)]
    match play_file opens s1.sink uri with
    | Except.error _ => (s1, outs)
    | Except.ok sk => ({ s1 with sink := sk }, outs)

/-- One iteration of the auto advance poll loop body: read is_busy, and if
the previous iteration saw busy and this one does not, advance under the lock
and dispatch, discarding any dispatch error; finally set was_playing to the
value read at the start of the iteration.  The ghost edge counter records the
observed falling edge, the forward counter the advance. -/
def poll_tick (opens : String → Bool) (s : AppState) : AppState × List Out :=
  let busy := is_busy s.sink
  if s.was_playing && !busy then
    let s0 := { s with edge_count := s.edge_count + 1 }
    if s0.tracks.isEmpty then ({ s0 with was_playing := busy }, [])
    else
      let idx := (s0.current_index + 1) % s0.tracks.length
      let s1 := { s0 with current_index := idx, adv_fwd_count := s0.adv_fwd_count + 1 }
      let track := s1.tracks.getD idx default
      let uri := "file://" ++ track.path
      let outs := [Out.println ("Auto-advancing to: " ++ uri)]
      match play_file opens s1.sink uri with
      | Except.error _ => ({ s1 with was_playing := busy }, outs)
      | Except.ok sk => ({ s1 with sink := sk, was_playing := busy }, outs)
  else ({ s with was_playing := busy }, [])

/-- Natural end of the current source: the sink queue drains only while a
source is loaded and actually playing, after which the queue is empty. -/
def complete_track (s : AppState) : AppState :=
  if s.sink.busy && !s.sink.paused then
    { s with sink := { s.sink with busy := false } }
  else s

/-- The condition under which a poll iteration advances: falling busy edge
and a nonempty playlist. -/
def fire_cond (s : AppState) : Bool :=
  s.was_playing && !s.sink.busy && !s.tracks.isEmpty

/-- The atomic events of the coordination core.  Every mutation of the shared
PlayerState in the source happens under its Mutex, so an execution is a
sequence of these events. -/
inductive Ev where
  | next
  | prev
  | playPause
  | select (i : Nat)
  | complete
  | tick
deriving Repr, DecidableEq

/-- Whether an event is a selection. -/
def is_select : Ev → Bool
  | Ev.select _ => true
  | _ => false

/-- Apply one event to the state. -/
def stepEv (opens : String → Bool) (s : AppState) : Ev → AppState
  | Ev.next => (on_next opens s).1
  | Ev.prev => (on_prev opens s).1
  | Ev.playPause => on_play_pause s
  | Ev.select i => (on_track_selected opens s i).1
  | Ev.complete => complete_track s
  | Ev.tick => (poll_tick opens s).1

/-- Apply a sequence of events. -/
def run (opens : String → Bool) (s : AppState) (tr : List Ev) : AppState :=
  tr.foldl (stepEv opens) s

/-- The startup block of main: build the state, and if the playlist is
nonempty dispatch the cursor zero track; the dispatch error is propagated
with the question mark operator, aborting main before the poll loop spawns. -/
def initialLoad (opens : String → Bool) (tracks : List Track) :
    Except String AppState :=
  let s := mkAppState tracks
  match tracks with
  | [] => Except.ok s
  | t :: _ =>
    match play_file opens s.sink ("file://" ++ t.path) with
    | Except.error e => Except.error e
    | Except.ok sk => Except.ok { s with sink := sk }

/-- Splits a character list at every occurrence of the separator character;
the separators are dropped and empty pieces are kept. -/
def splitOnChar (c : Char) : List Char → List (List Char)
  | [] => [[]]
  | x :: xs =>
    let r := splitOnChar c xs
    if x = c then [] :: r
    else
      match r with
      | [] => [[x]]
      | y :: ys => (x :: y) :: ys

/-- The final path component, as Path::file_name sees it. -/
def lastComponent (p : String) : String :=
  String.mk ((splitOnChar '/' p.data).getLastD p.data)

/-- Path::extension of the final component: none when the name holds no dot,
or consists of a leading dot with no further dot; otherwise the portion after
the final dot. -/
def pathExt (p : String) : Option String :=
  match splitOnChar '.' (lastComponent p).data with
  | [] => none
  | [_] => none
  | first :: second :: rest =>
    if first = [] ∧ rest = [] then none
    else some (String.mk ((second :: rest).getLastD second))

/-- Path::file_stem of the final component: the name without its extension. -/
def fileStem (p : String) : String :=
  let name := lastComponent p
  match pathExt p with
  | none => name
  | some e => String.mk (name.data.take (name.data.length - (e.data.length + 1)))

/-- fn is_audio_file from aurora-core/src/lib.rs: the extension matches one
of five lowercase literals, compared case sensitively. -/
def is_audio_file (path : String) : Bool :=
  match pathExt path with
  | some "mp3" => true
  | some "flac" => true
  | some "wav" => true
  | some "m4a" => true
  | some "ogg" => true
  | _ => false

/-- What the lofty tag reader returns for one file, at the interface boundary
used by LibraryManager::add_track. -/
structure TagData where
  title : Option String
  artist : Option String
  album : Option String
  duration : Nat
  track_number : Option Nat
  year : Option Nat
  genre : Option String
deriving Repr, DecidableEq

/-- Row of the artists table. -/
structure ArtistRow where
  id : Nat
  name : String
deriving Repr, DecidableEq

/-- Row of the albums table. -/
structure AlbumRow where
  id : Nat
  title : String
  artist_id : Nat
deriving Repr, DecidableEq

/-- Row of the tracks table. -/
structure TrackRow where
  id : Nat
  path : String
  title : String
  artist_id : Nat
  album_id : Nat
  duration : Nat
  track_number : Option Nat
  year : Option Nat
  genre : Option String
deriving Repr, DecidableEq

/-- The sqlite catalog: the three tables in rowid order plus the
AUTOINCREMENT sequence of each. -/
structure Db where
  artists : List ArtistRow
  albums : List AlbumRow
  tracks : List TrackRow
  next_artist_id : Nat
  next_album_id : Nat
  next_track_id : Nat
deriving Repr, DecidableEq

/-- The catalog right after initialize_schema on a fresh database. -/
def emptyDb : Db :=
  { artists := [], albums := [], tracks := [],
    next_artist_id := 1, next_album_id := 1, next_track_id := 1 }

/-- LibraryManager::get_or_create_artist: INSERT OR IGNORE by unique name,
then select the id. -/
def get_or_create_artist (db : Db) (name : String) : Nat × Db :=
  match db.artists.find? (fun r => r.name == name) with
  | some r => (r.id, db)
  | none =>
    (db.next_artist_id,
     { db with artists := db.artists ++ [{ id := db.next_artist_id, name := name }],
               next_artist_id := db.next_artist_id + 1 })

/-- LibraryManager::get_or_create_album: INSERT OR IGNORE by unique title and
artist id, then select the id. -/
def get_or_create_album (db : Db) (title : String) (artist_id : Nat) : Nat × Db :=
  match db.albums.find? (fun r => r.title == title && r.artist_id == artist_id) with
  | some r => (r.id, db)
  | none =>
    (db.next_album_id,
     { db with albums := db.albums ++ [{ id := db.next_album_id, title := title, artist_id := artist_id }],
               next_album_id := db.next_album_id + 1 })

/-- LibraryManager::add_track: read the tags (failure propagates), apply the
fallbacks, resolve artist and album, then INSERT OR REPLACE into tracks: the
row conflicting on the unique path column is deleted and a new row is
inserted with a fresh AUTOINCREMENT id. -/
def add_track (meta : String → Option TagData) (db : Db) (path : String) :
    Except String Db :=
  match meta path with
  | none => Except.error "metadata read failed"
  | some tag =>
    let title := tag.title.getD (fileStem path)
    let artist_name := tag.artist.getD "Unknown Artist"
    let album_title := tag.album.getD "Unknown Album"
    let ra := get_or_create_artist db artist_name
    let rb := get_or_create_album ra.2 album_title ra.1
    let db2 := rb.2
    Except.ok
      { db2 with
        tracks := db2.tracks.filter (fun r => r.path != path) ++
          [{ id := db2.next_track_id, path := path, title := title,
             artist_id := ra.1, album_id := rb.1, duration := tag.duration,
             track_number := tag.track_number, year := tag.year, genre := tag.genre }],
        next_track_id := db2.next_track_id + 1 }

/-- A directory tree as the scan sees it: a file is identified by its path;
a directory carries whether read_dir succeeds on it. -/
inductive FsEntry where
  | file (path : String)
  | dir (path : String) (readable : Bool) (entries : List FsEntry)
deriving Repr

mutual
/-- LibraryManager::scan_directory: a file path is not a directory, so the
call returns at once; on a directory, read_dir failure propagates with the
question mark operator, otherwise the entries are processed in order. -/
def scan_directory (meta : String → Option TagData) (db : Db) :
    FsEntry → Except String (Db × List String)
  | FsEntry.file _ => Except.ok (db, [])
  | FsEntry.dir _ readable entries =>
    if readable then scan_entries meta db entries
    else Except.error "read_dir failed"

/-- The for loop of scan_directory: subdirectories recurse and their errors
propagate; audio files are added, and an add_track failure is logged and the
loop continues with the siblings. -/
def scan_entries (meta : String → Option TagData) (db : Db) :
    List FsEntry → Except String (Db × List String)
  | [] => Except.ok (db, [])
  | e :: rest =>
    match e with
    | FsEntry.dir _ _ _ =>
      match scan_directory meta db e with
      | Except.error err => Except.error err
      | Except.ok (db1, logs1) =>
        match scan_entries meta db1 rest with
        | Except.error err => Except.error err
        | Except.ok (db2, logs2) => Except.ok (db2, logs1 ++ logs2)
    | FsEntry.file p =>
      if is_audio_file p then
        match add_track meta db p with
        | Except.error err =>
          match scan_entries meta db rest with
          | Except.error e2 => Except.error e2
          | Except.ok (db2, logs2) =>
            Except.ok (db2, ("Failed to add track " ++ p ++ ": " ++ err) :: logs2)
        | Except.ok db1 => scan_entries meta db1 rest
      else scan_entries meta db rest
end

mutual
/-- Whether every directory of the tree can be read, so that a scan never
aborts. -/
def entry_ok : FsEntry → Bool
  | FsEntry.file _ => true
  | FsEntry.dir _ readable entries => readable && entries_ok entries

/-- List version of entry_ok. -/
def entries_ok : List FsEntry → Bool
  | [] => true
  | e :: rest => entry_ok e && entries_ok rest
end

mutual
/-- The audio file paths a scan of this entry processes, in traversal order;
a bare file passed to scan_directory is not processed at all. -/
def dir_files : FsEntry → List String
  | FsEntry.file _ => []
  | FsEntry.dir _ _ entries => entries_files entries

/-- The audio file paths processed by the loop over an entry list. -/
def entries_files : List FsEntry → List String
  | [] => []
  | e :: rest =>
    match e with
    | FsEntry.file p => (if is_audio_file p then [p] else []) ++ entries_files rest
    | FsEntry.dir _ _ _ => dir_files e ++ entries_files rest
end

/-- The catalog effect of processing one audio file: add_track, keeping the
old catalog when it fails. -/
def proc_file (meta : String → Option TagData) (db : Db) (p : String) : Db :=
  match add_track meta db p with
  | Except.ok db1 => db1
  | Except.error _ => db

/-- The catalog effect of processing a list of audio files in order. -/
def proc_files (meta : String → Option TagData) (db : Db) (ps : List String) : Db :=
  ps.foldl (proc_file meta) db

/-- The log lines produced by processing a list of audio files: one line per
file whose metadata read fails. -/
def scan_logs (meta : String → Option TagData) (ps : List String) : List String :=
  ps.filterMap (fun p =>
    if (meta p).isSome then none
    else some ("Failed to add track " ++ p ++ ": " ++ "metadata read failed"))

/-- The paths of a list whose metadata read succeeds. -/
def meta_ok_paths (meta : String → Option TagData) (ps : List String) : List String :=
  ps.filter (fun p => (meta p).isSome)

/-- The track path list transformation of a sequence of path keyed upserts:
each upsert drops the old row with that path and appends the new one. -/
def upsert_path_list (L ps : List String) : List String :=
  ps.foldl (fun acc p => acc.filter (fun q => q != p) ++ [p]) L

/-- Oracle of a filesystem where every file opens and decodes. -/
def exOpensAll : String → Bool := fun _ => true

/-- A one track playlist used in concrete runs. -/
def exTrackA : Track :=
  { id := 1, path := "a.mp3", title := "A", artist := "Art", album := "Alb",
    duration := 100, track_number := none, year := none, genre := none }

/-- A track whose file never opens. -/
def badTrack : Track :=
  { id := 1, path := "bad.mp3", title := "Bad", artist := "Art", album := "Alb",
    duration := 100, track_number := none, year := none, genre := none }

/-- A track whose file opens fine. -/
def goodTrack : Track :=
  { id := 2, path := "good.mp3", title := "Good", artist := "Art", album := "Alb",
    duration := 100, track_number := none, year := none, genre := none }

/-- Oracle of a filesystem where only good.mp3 opens. -/
def exOpens3 : String → Bool := fun p => p == "good.mp3"

/-- Concrete state right after a successful dispatch of the only track: the
sink is busy, nothing paused, poll loop not yet run. -/
def cexPlaying : AppState :=
  { mkAppState [exTrackA] with sink := { busy := true, paused := false, volume := 1 } }

/-- Concrete state after an auto advance whose dispatch failed: idle sink and
was_playing false. -/
def stuckState : AppState := mkAppState [badTrack, goodTrack]

/-- Concrete tag metadata. -/
def exTag : TagData :=
  { title := some "T", artist := some "A", album := some "Al",
    duration := 100, track_number := none, year := none, genre := none }

/-- Tag oracle of a library holding exactly one readable audio file. -/
def exMeta : String → Option TagData :=
  fun p => if p == "music/a.mp3" then some exTag else none

/-- A directory holding one audio file. -/
def exTree : FsEntry := FsEntry.dir "music" true [FsEntry.file "music/a.mp3"]

/-- The catalog after scanning exTree once. -/
def exDb1 : Db :=
  match scan_directory exMeta emptyDb exTree with
  | Except.ok (d, _) => d
  | Except.error _ => emptyDb

/-- The catalog after scanning exTree a second time. -/
def exDb2 : Db :=
  match scan_directory exMeta exDb1 exTree with
  | Except.ok (d, _) => d
  | Except.error _ => emptyDb

/-- Tag oracle for the unreadable subtree example. -/
def exMeta7 : String → Option TagData :=
  fun p => if p == "root/good.mp3" then some exTag else none

/-- A directory whose first entry is an unreadable subdirectory and whose
second entry is a perfectly readable audio file. -/
def exTree7 : FsEntry :=
  FsEntry.dir "root" true
    [FsEntry.dir "root/locked" false [], FsEntry.file "root/good.mp3"]

/-- Tag oracle where every metadata read succeeds. -/
def meta10 : String → Option TagData := fun _ => some exTag

/-- A directory holding one file whose extension is upper case. -/
def tree10 : FsEntry := FsEntry.dir "d" true [FsEntry.file "SONG.MP3"]

/-- Two track playlist state with the sink playing, for concrete runs. -/
def cexC1 : AppState :=
  { mkAppState [badTrack, goodTrack] with
    sink := { busy := true, paused := false, volume := 1 } }

/-- A concrete interleaving of user commands, a completion and poll ticks. -/
def trC1 : List Ev := [Ev.tick, Ev.next, Ev.complete, Ev.tick, Ev.prev]

/-- A state on which the next poll iteration advances: the previous iteration
saw the sink busy and the track has since completed. -/
def fireState : AppState := { mkAppState [exTrackA] with was_playing := true }

/-- A concrete event sequence mixing all command kinds. -/
def tr8 : List Ev := [Ev.next, Ev.prev, Ev.select 0, Ev.tick, Ev.complete, Ev.playPause]

/-- The empty playlist state. -/
def emptyState : AppState := mkAppState []

theorem on_next_empty (opens : String → Bool) (s : AppState)
    (h : s.tracks.isEmpty = true) : on_next opens s = (s, []) := by
  simp [on_next, h]

theorem on_next_fields (opens : String → Bool) (s : AppState)
    (h : s.tracks.isEmpty = false) :
    (on_next opens s).1.tracks = s.tracks ∧
    (on_next opens s).1.current_index = (s.current_index + 1) % s.tracks.length ∧
    (on_next opens s).1.adv_fwd_count = s.adv_fwd_count + 1 ∧
    (on_next opens s).1.adv_bwd_count = s.adv_bwd_count ∧
    (on_next opens s).1.edge_count = s.edge_count := by
  simp only [on_next, h, Bool.false_eq_true, if_false]
  cases hp : play_file opens s.sink ("file://" ++ (s.tracks.getD ((s.current_index + 1) % s.tracks.length) default).path) <;>
    simp [hp]

theorem on_prev_empty (opens : String → Bool) (s : AppState)
    (h : s.tracks.isEmpty = true) : on_prev opens s = (s, []) := by
  simp [on_prev, h]

theorem on_prev_fields (opens : String → Bool) (s : AppState)
    (h : s.tracks.isEmpty = false) :
    (on_prev opens s).1.tracks = s.tracks ∧
    (on_prev opens s).1.current_index =
      (if s.current_index = 0 then s.tracks.length - 1 else s.current_index - 1) ∧
    (on_prev opens s).1.adv_fwd_count = s.adv_fwd_count ∧
    (on_prev opens s).1.adv_bwd_count = s.adv_bwd_count + 1 ∧
    (on_prev opens s).1.edge_count = s.edge_count := by
  simp only [on_prev, h, Bool.false_eq_true, if_false]
  cases hp : play_file opens s.sink ("file://" ++ (s.tracks.getD (if s.current_index = 0 then s.tracks.length - 1 else s.current_index - 1) default).path) <;>
    simp [hp]

theorem on_play_pause_fields (s : AppState) :
    (on_play_pause s).tracks = s.tracks ∧
    (on_play_pause s).current_index = s.current_index ∧
    (on_play_pause s).adv_fwd_count = s.adv_fwd_count ∧
    (on_play_pause s).adv_bwd_count = s.adv_bwd_count ∧
    (on_play_pause s).edge_count = s.edge_count ∧
    (on_play_pause s).is_paused = !s.is_paused ∧
    (on_play_pause s).sink.busy = s.sink.busy ∧
    (on_play_pause s).was_playing = s.was_playing := by
  cases h : s.is_paused <;> simp [on_play_pause, h, engine_pause, engine_resume]

theorem complete_track_fields (s : AppState) :
    (complete_track s).tracks = s.tracks ∧
    (complete_track s).current_index = s.current_index ∧
    (complete_track s).adv_fwd_count = s.adv_fwd_count ∧
    (complete_track s).adv_bwd_count = s.adv_bwd_count ∧
    (complete_track s).edge_count = s.edge_count ∧
    (complete_track s).was_playing = s.was_playing ∧
    (complete_track s).is_paused = s.is_paused := by
  unfold complete_track
  split <;> simp

theorem on_track_selected_fields (opens : String → Bool) (s : AppState) (i : Nat) :
    (on_track_selected opens s i).1.tracks = s.tracks ∧
    (on_track_selected opens s i).1.current_index =
      (if i < s.tracks.length then i else s.current_index) ∧
    (on_track_selected opens s i).1.adv_fwd_count = s.adv_fwd_count ∧
    (on_track_selected opens s i).1.adv_bwd_count = s.adv_bwd_count ∧
    (on_track_selected opens s i).1.edge_count = s.edge_count := by
  simp only [on_track_selected]
  split
  · cases hp : play_file opens s.sink ("file://" ++ (s.tracks.getD i default).path) <;>
      simp_all
  · simp_all

theorem poll_tick_noedge (opens : String → Bool) (s : AppState)
    (h : (s.was_playing && !is_busy s.sink) = false) :
    poll_tick opens s = ({ s with was_playing := is_busy s.sink }, []) := by
  simp [poll_tick, h]

theorem poll_tick_edge_empty (opens : String → Bool) (s : AppState)
    (h : (s.was_playing && !is_busy s.sink) = true)
    (he : s.tracks.isEmpty = true) :
    poll_tick opens s =
      ({ s with edge_count := s.edge_count + 1, was_playing := is_busy s.sink }, []) := by
  simp [poll_tick, h, he]

theorem poll_tick_edge_fields (opens : String → Bool) (s : AppState)
    (h : (s.was_playing && !is_busy s.sink) = true)
    (he : s.tracks.isEmpty = false) :
    (poll_tick opens s).1.tracks = s.tracks ∧
    (poll_tick opens s).1.current_index = (s.current_index + 1) % s.tracks.length ∧
    (poll_tick opens s).1.adv_fwd_count = s.adv_fwd_count + 1 ∧
    (poll_tick opens s).1.adv_bwd_count = s.adv_bwd_count ∧
    (poll_tick opens s).1.edge_count = s.edge_count + 1 ∧
    (poll_tick opens s).1.was_playing = false := by
  have hb : is_busy s.sink = false := by
    cases hw : s.was_playing <;> cases hbb : is_busy s.sink <;> simp_all
  simp only [poll_tick, h, if_true, he, Bool.false_eq_true, if_false]
  cases hp : play_file opens s.sink ("file://" ++ (s.tracks.getD ((s.current_index + 1) % s.tracks.length) default).path) <;>
    simp_all

theorem stepEv_tracks (opens : String → Bool) (s : AppState) (e : Ev) :
    (stepEv opens s e).tracks = s.tracks := by
  cases e with
  | next =>
    cases h : s.tracks.isEmpty
    · exact (on_next_fields opens s h).1
    · simp [stepEv, on_next_empty opens s h]
  | prev =>
    cases h : s.tracks.isEmpty
    · exact (on_prev_fields opens s h).1
    · simp [stepEv, on_prev_empty opens s h]
  | playPause => exact (on_play_pause_fields s).1
  | select i => exact (on_track_selected_fields opens s i).1
  | complete => exact (complete_track_fields s).1
  | tick =>
    cases h : (s.was_playing && !is_busy s.sink)
    · simp [stepEv, poll_tick_noedge opens s h]
    · cases he : s.tracks.isEmpty
      · exact (poll_tick_edge_fields opens s h he).1
      · simp [stepEv, poll_tick_edge_empty opens s h he]

theorem stepEv_cursor_lt (opens : String → Bool) (s : AppState) (e : Ev)
    (h : s.current_index < s.tracks.length) :
    (stepEv opens s e).current_index < s.tracks.length := by
  have hpos : 0 < s.tracks.length := lt_of_le_of_lt (Nat.zero_le _) h
  have hne : s.tracks.isEmpty = false := by
    cases hT : s.tracks <;> simp_all
  cases e with
  | next =>
    have := (on_next_fields opens s hne).2.1
    show (on_next opens s).1.current_index < s.tracks.length
    rw [this]
    exact Nat.mod_lt _ hpos
  | prev =>
    have := (on_prev_fields opens s hne).2.1
    show (on_prev opens s).1.current_index < s.tracks.length
    rw [this]
    split
    · exact Nat.sub_lt hpos Nat.one_pos
    · exact lt_of_le_of_lt (Nat.sub_le _ _) h
  | playPause =>
    show (on_play_pause s).current_index < s.tracks.length
    rw [(on_play_pause_fields s).2.1]; exact h
  | select i =>
    have := (on_track_selected_fields opens s i).2.1
    show (on_track_selected opens s i).1.current_index < s.tracks.length
    rw [this]
    split
    · assumption
    · exact h
  | complete =>
    show (complete_track s).current_index < s.tracks.length
    rw [(complete_track_fields s).2.1]; exact h
  | tick =>
    cases hc : (s.was_playing && !is_busy s.sink)
    · show (poll_tick opens s).1.current_index < s.tracks.length
      rw [poll_tick_noedge opens s hc]
      exact h
    · have := (poll_tick_edge_fields opens s hc hne).2.1
      show (poll_tick opens s).1.current_index < s.tracks.length
      rw [this]
      exact Nat.mod_lt _ hpos

theorem run_tracks (opens : String → Bool) (tr : List Ev) (s : AppState) :
    (run opens s tr).tracks = s.tracks := by
  induction tr generalizing s with
  | nil => rfl
  | cons e tr ih =>
    show (run opens (stepEv opens s e) tr).tracks = s.tracks
    rw [ih (stepEv opens s e), stepEv_tracks]

theorem run_cursor_lt (opens : String → Bool) (tr : List Ev) (s : AppState)
    (h : s.current_index < s.tracks.length) :
    (run opens s tr).current_index < s.tracks.length := by
  induction tr generalizing s with
  | nil => exact h
  | cons e tr ih =>
    show (run opens (stepEv opens s e) tr).current_index < s.tracks.length
    have h1 : (stepEv opens s e).current_index < (stepEv opens s e).tracks.length := by
      rw [stepEv_tracks]; exact stepEv_cursor_lt opens s e h
    have := ih (stepEv opens s e) h1
    rwa [stepEv_tracks] at this

theorem mod_acc_fwd (L m c k R : Nat) :
    ((m + 1) % L + c + k + R) % L = (m + (c + 1) + k + R) % L := by
  have h1 : (m + 1) % L + c + k + R = (m + 1) % L + (c + k + R) := by ring
  rw [h1, Nat.mod_add_mod]
  congr 1
  ring

theorem mod_acc_tick (L m c k R : Nat) :
    ((m + 1) % L + c + k + R) % L = (m + c + (k + 1) + R) % L := by
  have h1 : (m + 1) % L + c + k + R = (m + 1) % L + (c + k + R) := by ring
  rw [h1, Nat.mod_add_mod]
  congr 1
  ring

theorem mod_acc_prev (L m c k R : Nat) (hm : m < L) :
    ((if m = 0 then L - 1 else m - 1) + c + k + R) % L = (m + c + k + (R + (L - 1))) % L := by
  by_cases h0 : m = 0
  · subst h0
    rw [if_pos rfl]
    congr 1
    omega
  · rw [if_neg h0]
    have h2 : m + c + k + (R + (L - 1)) = (m - 1 + c + k + R) + L := by omega
    rw [h2, Nat.add_mod_right]

theorem run_accounting (opens : String → Bool) (tr : List Ev) : ∀ (s : AppState),
    s.tracks.isEmpty = false →
    s.current_index < s.tracks.length →
    (∀ e ∈ tr, is_select e = false) →
    ∃ k, (run opens s tr).edge_count = s.edge_count + k ∧
      (run opens s tr).adv_fwd_count = s.adv_fwd_count + (tr.count Ev.next + k) ∧
      (run opens s tr).adv_bwd_count = s.adv_bwd_count + tr.count Ev.prev ∧
      (run opens s tr).current_index =
        (s.current_index + tr.count Ev.next + k +
          (s.tracks.length - 1) * tr.count Ev.prev) % s.tracks.length := by
  induction tr with
  | nil =>
    intro s hne hlt _
    refine ⟨0, by simp [run], by simp [run], by simp [run], ?_⟩
    simp [run, Nat.mod_eq_of_lt hlt]
  | cons e tr ih =>
    intro s hne hlt hsel
    have hrun : run opens s (e :: tr) = run opens (stepEv opens s e) tr := rfl
    have htr1 : (stepEv opens s e).tracks = s.tracks := stepEv_tracks opens s e
    have hne1 : (stepEv opens s e).tracks.isEmpty = false := by rw [htr1]; exact hne
    have hlt1 : (stepEv opens s e).current_index < (stepEv opens s e).tracks.length := by
      rw [htr1]; exact stepEv_cursor_lt opens s e hlt
    obtain ⟨k2, he2, hf2, hb2, hi2⟩ :=
      ih (stepEv opens s e) hne1 hlt1 (fun e' h' => hsel e' (List.mem_cons_of_mem _ h'))
    rw [htr1] at hi2
    cases e with
    | next =>
      have hF := on_next_fields opens s hne
      have hs1 : stepEv opens s Ev.next = (on_next opens s).1 := rfl
      rw [hs1] at he2 hf2 hb2 hi2
      have hcn : (Ev.next :: tr).count Ev.next = tr.count Ev.next + 1 :=
        List.count_cons_self _ _
      have hcp : (Ev.next :: tr).count Ev.prev = tr.count Ev.prev :=
        List.count_cons_of_ne (by decide) _
      refine ⟨k2, ?_, ?_, ?_, ?_⟩
      · rw [hrun, hs1, he2, hF.2.2.2.2]
      · rw [hrun, hs1, hf2, hF.2.2.1, hcn]; omega
      · rw [hrun, hs1, hb2, hF.2.2.2.1, hcp]
      · rw [hrun, hs1, hi2, hF.2.1, hcn, hcp]
        exact mod_acc_fwd s.tracks.length s.current_index (tr.count Ev.next) k2
          ((s.tracks.length - 1) * tr.count Ev.prev)
    | prev =>
      have hF := on_prev_fields opens s hne
      have hs1 : stepEv opens s Ev.prev = (on_prev opens s).1 := rfl
      rw [hs1] at he2 hf2 hb2 hi2
      have hcn : (Ev.prev :: tr).count Ev.next = tr.count Ev.next :=
        List.count_cons_of_ne (by decide) _
      have hcp : (Ev.prev :: tr).count Ev.prev = tr.count Ev.prev + 1 :=
        List.count_cons_self _ _
      refine ⟨k2, ?_, ?_, ?_, ?_⟩
      · rw [hrun, hs1, he2, hF.2.2.2.2]
      · rw [hrun, hs1, hf2, hF.2.2.1, hcn]
      · rw [hrun, hs1, hb2, hF.2.2.2.1, hcp]; omega
      · rw [hrun, hs1, hi2, hF.2.1, hcn, hcp, Nat.mul_succ]
        exact mod_acc_prev s.tracks.length s.current_index (tr.count Ev.next) k2
          ((s.tracks.length - 1) * tr.count Ev.prev) hlt
    | playPause =>
      have hF := on_play_pause_fields s
      have hs1 : stepEv opens s Ev.playPause = on_play_pause s := rfl
      rw [hs1] at he2 hf2 hb2 hi2
      have hcn : (Ev.playPause :: tr).count Ev.next = tr.count Ev.next :=
        List.count_cons_of_ne (by decide) _
      have hcp : (Ev.playPause :: tr).count Ev.prev = tr.count Ev.prev :=
        List.count_cons_of_ne (by decide) _
      refine ⟨k2, ?_, ?_, ?_, ?_⟩
      · rw [hrun, hs1, he2, hF.2.2.2.2.1]
      · rw [hrun, hs1, hf2, hF.2.2.1, hcn]
      · rw [hrun, hs1, hb2, hF.2.2.2.1, hcp]
      · rw [hrun, hs1, hi2, hF.2.1, hcn, hcp]
    | select i =>
      exact absurd (hsel (Ev.select i) (List.mem_cons_self _ _)) (by simp [is_select])
    | complete =>
      have hF := complete_track_fields s
      have hs1 : stepEv opens s Ev.complete = complete_track s := rfl
      rw [hs1] at he2 hf2 hb2 hi2
      have hcn : (Ev.complete :: tr).count Ev.next = tr.count Ev.next :=
        List.count_cons_of_ne (by decide) _
      have hcp : (Ev.complete :: tr).count Ev.prev = tr.count Ev.prev :=
        List.count_cons_of_ne (by decide) _
      refine ⟨k2, ?_, ?_, ?_, ?_⟩
      · rw [hrun, hs1, he2, hF.2.2.2.2.1]
      · rw [hrun, hs1, hf2, hF.2.2.1, hcn]
      · rw [hrun, hs1, hb2, hF.2.2.2.1, hcp]
      · rw [hrun, hs1, hi2, hF.2.1, hcn, hcp]
    | tick =>
      have hs1 : stepEv opens s Ev.tick = (poll_tick opens s).1 := rfl
      rw [hs1] at he2 hf2 hb2 hi2
      have hcn : (Ev.tick :: tr).count Ev.next = tr.count Ev.next :=
        List.count_cons_of_ne (by decide) _
      have hcp : (Ev.tick :: tr).count Ev.prev = tr.count Ev.prev :=
        List.count_cons_of_ne (by decide) _
      cases hc : (s.was_playing && !is_busy s.sink) with
      | false =>
        have hstep : poll_tick opens s = ({ s with was_playing := is_busy s.sink }, []) :=
          poll_tick_noedge opens s hc
        have hE : (poll_tick opens s).1.edge_count = s.edge_count := by rw [hstep]
        have hFw : (poll_tick opens s).1.adv_fwd_count = s.adv_fwd_count := by rw [hstep]
        have hBw : (poll_tick opens s).1.adv_bwd_count = s.adv_bwd_count := by rw [hstep]
        have hIx : (poll_tick opens s).1.current_index = s.current_index := by rw [hstep]
        refine ⟨k2, ?_, ?_, ?_, ?_⟩
        · rw [hrun, hs1, he2, hE]
        · rw [hrun, hs1, hf2, hFw, hcn]
        · rw [hrun, hs1, hb2, hBw, hcp]
        · rw [hrun, hs1, hi2, hIx, hcn, hcp]
      | true =>
        have hF := poll_tick_edge_fields opens s hc hne
        refine ⟨k2 + 1, ?_, ?_, ?_, ?_⟩
        · rw [hrun, hs1, he2, hF.2.2.2.2.1]; omega
        · rw [hrun, hs1, hf2, hF.2.2.1, hcn]; omega
        · rw [hrun, hs1, hb2, hF.2.2.2.1, hcp]
        · rw [hrun, hs1, hi2, hF.2.1, hcn, hcp]
          exact mod_acc_tick s.tracks.length s.current_index (tr.count Ev.next) k2
            ((s.tracks.length - 1) * tr.count Ev.prev)

/-- C1: on a nonempty playlist, along any interleaving of Next and Prev
commands, pause toggles, track completions and poll iterations (each atomic
because every PlayerState mutation happens under the single Mutex), the total
number of cursor advances equals the number of user Next and Prev calls plus
the number of observed completion edges, and the final cursor equals the
initial cursor shifted by one forward step per Next or observed edge and one
backward step per Prev, modulo the playlist length; no advance is lost or
doubled. -/
theorem c1_advance_accounting (opens : String → Bool) (s : AppState) (tr : List Ev)
    (hne : s.tracks.isEmpty = false)
    (hlt : s.current_index < s.tracks.length)
    (hz : s.adv_fwd_count = 0 ∧ s.adv_bwd_count = 0 ∧ s.edge_count = 0)
    (hsel : ∀ e ∈ tr, is_select e = false) :
    (run opens s tr).adv_fwd_count + (run opens s tr).adv_bwd_count =
      (tr.count Ev.next + tr.count Ev.prev) + (run opens s tr).edge_count ∧
    (run opens s tr).current_index =
      (s.current_index + tr.count Ev.next + (run opens s tr).edge_count +
        (s.tracks.length - 1) * tr.count Ev.prev) % s.tracks.length := by
  obtain ⟨k, he, hf, hb, hi⟩ := run_accounting opens tr s hne hlt hsel
  obtain ⟨h1, h2, h3⟩ := hz
  have hk : (run opens s tr).edge_count = k := by rw [he, h3]; omega
  constructor
  · rw [hf, hb, hk, h1, h2]; omega
  · rw [hi, hk]

/-- Witness for c1_advance_accounting at a concrete two track playlist and a
concrete interleaving with one observed completion edge. -/
theorem c1_advance_accounting_witness :
    cexC1.tracks.isEmpty = false ∧ cexC1.current_index < cexC1.tracks.length ∧
    ((run exOpensAll cexC1 trC1).adv_fwd_count + (run exOpensAll cexC1 trC1).adv_bwd_count =
      (trC1.count Ev.next + trC1.count Ev.prev) + (run exOpensAll cexC1 trC1).edge_count ∧
    (run exOpensAll cexC1 trC1).current_index =
      (cexC1.current_index + trC1.count Ev.next + (run exOpensAll cexC1 trC1).edge_count +
        (cexC1.tracks.length - 1) * trC1.count Ev.prev) % cexC1.tracks.length) :=
  ⟨by decide, by decide,
    c1_advance_accounting exOpensAll cexC1 trC1 (by decide) (by decide)
      ⟨rfl, rfl, rfl⟩ (by decide)⟩

/-- C2 (amended): a poll iteration advances exactly when the previous
iteration observed the sink busy, the current one observes it idle, and the
playlist is nonempty, so the advance fires only on the falling busy edge and
never moves the cursor backward; and it fires at most once per edge, since
the iteration immediately after a firing one can never fire.  The part of
the original claim saying it never fires while Paused is refuted by
c2_fires_while_paused. -/
theorem c2_edge_detection (opens : String → Bool) (s : AppState) :
    ((poll_tick opens s).1.adv_fwd_count =
      s.adv_fwd_count + (if fire_cond s = true then 1 else 0)) ∧
    ((poll_tick opens s).1.adv_bwd_count = s.adv_bwd_count) ∧
    (fire_cond s = true → fire_cond (poll_tick opens s).1 = false) := by
  cases hc : (s.was_playing && !is_busy s.sink) with
  | false =>
    have hcf : fire_cond s = false := by
      unfold fire_cond
      have : (s.was_playing && !s.sink.busy) = false := hc
      rw [this]
      rfl
    have hstep := poll_tick_noedge opens s hc
    refine ⟨?_, ?_, ?_⟩
    · rw [hstep, hcf]; rfl
    · rw [hstep]
    · intro hf; exact absurd hf (by rw [hcf]; decide)
  | true =>
    cases he : s.tracks.isEmpty with
    | true =>
      have hcf : fire_cond s = false := by
        unfold fire_cond
        have : (s.was_playing && !s.sink.busy) = true := hc
        rw [this, he]
        rfl
      have hstep := poll_tick_edge_empty opens s hc he
      refine ⟨?_, ?_, ?_⟩
      · rw [hstep, hcf]; rfl
      · rw [hstep]
      · intro hf; exact absurd hf (by rw [hcf]; decide)
    | false =>
      have hcf : fire_cond s = true := by
        unfold fire_cond
        have : (s.was_playing && !s.sink.busy) = true := hc
        rw [this, he]
        rfl
      have hF := poll_tick_edge_fields opens s hc he
      refine ⟨?_, hF.2.2.2.1, ?_⟩
      · rw [hF.2.2.1, hcf]; simp
      · intro _
        unfold fire_cond
        rw [hF.2.2.2.2.2]
        rfl

/-- Witness for c2_edge_detection at a state on the falling edge: the
iteration advances once and the next iteration cannot advance. -/
theorem c2_edge_detection_witness :
    ((poll_tick exOpensAll fireState).1.adv_fwd_count =
      fireState.adv_fwd_count + (if fire_cond fireState = true then 1 else 0)) ∧
    fire_cond fireState = true ∧
    fire_cond (poll_tick exOpensAll fireState).1 = false :=
  ⟨(c2_edge_detection exOpensAll fireState).1, by decide,
    (c2_edge_detection exOpensAll fireState).2.2 (by decide)⟩

/-- C2 (counterexample): start playing, let the poll loop observe it, let the
track complete, then toggle play_pause: the player is now paused (both the
captured flag and the sink flag), yet the next poll iteration still advances
the cursor, refuting the claim that the advance never fires while Paused. -/
theorem c2_fires_while_paused :
    (run exOpensAll cexPlaying [Ev.tick, Ev.complete, Ev.playPause]).is_paused = true ∧
    (run exOpensAll cexPlaying [Ev.tick, Ev.complete, Ev.playPause]).sink.paused = true ∧
    (stepEv exOpensAll (run exOpensAll cexPlaying [Ev.tick, Ev.complete, Ev.playPause])
        Ev.tick).adv_fwd_count =
      (run exOpensAll cexPlaying [Ev.tick, Ev.complete, Ev.playPause]).adv_fwd_count + 1 := by
  decide

/-- C8: whenever the cursor starts inside the playlist bounds, it remains
inside the bounds along any sequence of Next, Prev, select, play_pause,
completion and poll events. -/
theorem c8_cursor_in_range (opens : String → Bool) (s : AppState) (tr : List Ev)
    (h : s.current_index < s.tracks.length) :
    (run opens s tr).current_index < s.tracks.length :=
  run_cursor_lt opens tr s h

/-- Witness for c8_cursor_in_range on a concrete mixed event sequence. -/
theorem c8_cursor_in_range_witness :
    (run exOpensAll cexC1 tr8).current_index < cexC1.tracks.length :=
  c8_cursor_in_range exOpensAll cexC1 tr8 (by decide)

/-- C9 (amended): with an empty playlist, Next and Prev return at once with
no state change and no output; play_pause does not panic and leaves the
playlist, cursor and sink queue unchanged, but toggles the captured pause
flag (and the sink pause flag) even though nothing is loaded. -/
theorem c9_empty_playlist (opens : String → Bool) (s : AppState)
    (h : s.tracks.isEmpty = true) :
    on_next opens s = (s, []) ∧
    on_prev opens s = (s, []) ∧
    (on_play_pause s).tracks = s.tracks ∧
    (on_play_pause s).current_index = s.current_index ∧
    (on_play_pause s).sink.busy = s.sink.busy ∧
    (on_play_pause s).is_paused = !s.is_paused := by
  have hF := on_play_pause_fields s
  exact ⟨on_next_empty opens s h, on_prev_empty opens s h, hF.1, hF.2.1,
    hF.2.2.2.2.2.2.1, hF.2.2.2.2.2.1⟩

/-- Witness for c9_empty_playlist at the empty playlist state. -/
theorem c9_empty_playlist_witness :
    on_next exOpensAll emptyState = (emptyState, []) ∧
    on_prev exOpensAll emptyState = (emptyState, []) ∧
    (on_play_pause emptyState).tracks = emptyState.tracks ∧
    (on_play_pause emptyState).current_index = emptyState.current_index ∧
    (on_play_pause emptyState).sink.busy = emptyState.sink.busy ∧
    (on_play_pause emptyState).is_paused = !emptyState.is_paused :=
  c9_empty_playlist exOpensAll emptyState (by decide)

/-- C9 (counterexample): play_pause on the empty playlist state flips the
captured pause flag and the sink pause flag, so it does change the internal
pause bookkeeping, refuting the no-op claim for play_pause. -/
theorem c9_play_pause_mutates_empty :
    (on_play_pause emptyState).is_paused = true ∧ emptyState.is_paused = false ∧
    (on_play_pause emptyState).sink.paused = true ∧ emptyState.sink.paused = false := by
  decide

/-- C3: on the playlist bad.mp3, good.mp3 where bad.mp3 cannot be opened,
the startup dispatch error is propagated by the question mark operator and
main aborts before the poll loop even spawns; moreover once the poll loop
state has was_playing false over an idle sink (as it does right after an
auto advance whose dispatch failed, the error having been discarded), any
number of further poll iterations changes nothing, so the coordinator is
stuck rather than advancing once per tick. -/
theorem c3_dispatch_failure_behaviour :
    (initialLoad exOpens3 [badTrack, goodTrack] =
      Except.error "failed to open bad.mp3") ∧
    (∀ (opens : String → Bool) (k : Nat) (s : AppState),
      s.was_playing = false → s.sink.busy = false →
      run opens s (List.replicate k Ev.tick) = s) := by
  constructor
  · rfl
  · intro opens k s hwp hb
    induction k with
    | zero => rfl
    | succ k ih =>
      have hc : (s.was_playing && !is_busy s.sink) = false := by
        rw [hwp]; rfl
      have hbusy : is_busy s.sink = s.was_playing := by
        rw [hwp]; exact hb
      have hstep : stepEv opens s Ev.tick = s := by
        show (poll_tick opens s).1 = s
        rw [poll_tick_noedge opens s hc]
        rw [hbusy]
      rw [List.replicate_succ]
      show run opens (stepEv opens s Ev.tick) (List.replicate k Ev.tick) = s
      rw [hstep]
      exact ih

/-- Witness for c3_dispatch_failure_behaviour: three poll iterations on the
concrete stuck state change nothing. -/
theorem c3_dispatch_failure_witness :
    run exOpensAll stuckState (List.replicate 3 Ev.tick) = stuckState :=
  c3_dispatch_failure_behaviour.2 exOpensAll 3 stuckState rfl rfl

/-- C5 (amended): set_volume accepts every level and stores it as the
effective gain without clamping; the queue and pause state are untouched. -/
theorem c5_volume_passthrough (s : SinkState) (v : Rat) :
    (set_volume s v).volume = v ∧ (set_volume s v).busy = s.busy ∧
    (set_volume s v).paused = s.paused :=
  ⟨rfl, rfl, rfl⟩

/-- C5 (counterexample): the clamping claim fails: gain 3/2 is stored as 3/2
rather than 1, and gain -3/10 is stored as -3/10 rather than 0. -/
theorem c5_no_clamping :
    (set_volume initSink (3/2)).volume = 3/2 ∧
    ¬((set_volume initSink (3/2)).volume = 1) ∧
    (set_volume initSink (-3/10)).volume = -3/10 ∧
    ¬((set_volume initSink (-3/10)).volume = 0) := by
  refine ⟨rfl, ?_, rfl, ?_⟩
  · show ¬((3 : Rat)/2 = 1)
    norm_num
  · show ¬((-3 : Rat)/10 = 0)
    norm_num

theorem scan_dir_file (meta : String → Option TagData) (db : Db) (p : String) :
    scan_directory meta db (FsEntry.file p) = Except.ok (db, []) := rfl

theorem scan_dir_dir (meta : String → Option TagData) (db : Db) (n : String)
    (r : Bool) (es : List FsEntry) :
    scan_directory meta db (FsEntry.dir n r es) =
      (if r then scan_entries meta db es else Except.error "read_dir failed") := rfl

theorem scan_entries_cons_file (meta : String → Option TagData) (db : Db)
    (p : String) (rest : List FsEntry) :
    scan_entries meta db (FsEntry.file p :: rest) =
      (if is_audio_file p then
        match add_track meta db p with
        | Except.error err =>
          match scan_entries meta db rest with
          | Except.error e2 => Except.error e2
          | Except.ok (db2, logs2) =>
            Except.ok (db2, ("Failed to add track " ++ p ++ ": " ++ err) :: logs2)
        | Except.ok db1 => scan_entries meta db1 rest
      else scan_entries meta db rest) := rfl

theorem scan_entries_cons_dir (meta : String → Option TagData) (db : Db)
    (n : String) (r : Bool) (es rest : List FsEntry) :
    scan_entries meta db (FsEntry.dir n r es :: rest) =
      (match scan_directory meta db (FsEntry.dir n r es) with
      | Except.error err => Except.error err
      | Except.ok (db1, logs1) =>
        match scan_entries meta db1 rest with
        | Except.error err => Except.error err
        | Except.ok (db2, logs2) => Except.ok (db2, logs1 ++ logs2)) := rfl

theorem entry_ok_dir (n : String) (r : Bool) (es : List FsEntry) :
    entry_ok (FsEntry.dir n r es) = (r && entries_ok es) := rfl

theorem entries_ok_cons (e : FsEntry) (rest : List FsEntry) :
    entries_ok (e :: rest) = (entry_ok e && entries_ok rest) := rfl

theorem dir_files_dir (n : String) (r : Bool) (es : List FsEntry) :
    dir_files (FsEntry.dir n r es) = entries_files es := rfl

theorem entries_files_cons_file (p : String) (rest : List FsEntry) :
    entries_files (FsEntry.file p :: rest) =
      (if is_audio_file p then [p] else []) ++ entries_files rest := rfl

theorem entries_files_cons_dir (n : String) (r : Bool) (es rest : List FsEntry) :
    entries_files (FsEntry.dir n r es :: rest) =
      dir_files (FsEntry.dir n r es) ++ entries_files rest := rfl

theorem proc_files_append (meta : String → Option TagData) (db : Db)
    (a b : List String) :
    proc_files meta db (a ++ b) = proc_files meta (proc_files meta db a) b :=
  List.foldl_append _ _ _ _

theorem scan_logs_append (meta : String → Option TagData) (a b : List String) :
    scan_logs meta (a ++ b) = scan_logs meta a ++ scan_logs meta b :=
  List.filterMap_append _ _ _

mutual
theorem scan_dir_eq (meta : String → Option TagData) :
    (t : FsEntry) → (db : Db) → entry_ok t = true →
    scan_directory meta db t =
      Except.ok (proc_files meta db (dir_files t), scan_logs meta (dir_files t))
  | FsEntry.file _, _, _ => rfl
  | FsEntry.dir n r es, db, h => by
    have h2 : r = true ∧ entries_ok es = true := by
      simpa [entry_ok_dir] using h
    obtain ⟨hr, hes⟩ := h2
    subst hr
    rw [scan_dir_dir, if_pos rfl, scan_entries_eq meta es db hes]
    rfl

theorem scan_entries_eq (meta : String → Option TagData) :
    (es : List FsEntry) → (db : Db) → entries_ok es = true →
    scan_entries meta db es =
      Except.ok (proc_files meta db (entries_files es), scan_logs meta (entries_files es))
  | [], _, _ => rfl
  | FsEntry.file p :: rest, db, h => by
    have hrest : entries_ok rest = true := by
      have h2 : entry_ok (FsEntry.file p) = true ∧ entries_ok rest = true := by
        simpa [entries_ok_cons] using h
      exact h2.2
    rw [scan_entries_cons_file]
    by_cases haud : is_audio_file p
    · rw [if_pos haud]
      cases hmp : meta p with
      | none =>
        have hadd : add_track meta db p = Except.error "metadata read failed" := by
          unfold add_track
          rw [hmp]
        have hmsome : (meta p).isSome = false := by rw [hmp]; rfl
        rw [hadd]
        show (match scan_entries meta db rest with
          | Except.error e2 => Except.error e2
          | Except.ok (db2, logs2) =>
            Except.ok (db2,
              ("Failed to add track " ++ p ++ ": " ++ "metadata read failed") :: logs2)) = _
        rw [scan_entries_eq meta rest db hrest]
        show Except.ok (proc_files meta db (entries_files rest),
          ("Failed to add track " ++ p ++ ": " ++ "metadata read failed") ::
            scan_logs meta (entries_files rest)) = _
        rw [entries_files_cons_file, if_pos haud]
        have hpf : proc_file meta db p = db := by
          unfold proc_file
          rw [hadd]
        have hfold : proc_files meta db ([p] ++ entries_files rest) =
            proc_files meta db (entries_files rest) := by
          show proc_files meta (proc_file meta db p) (entries_files rest) = _
          rw [hpf]
        have hlogs : scan_logs meta ([p] ++ entries_files rest) =
            ("Failed to add track " ++ p ++ ": " ++ "metadata read failed") ::
              scan_logs meta (entries_files rest) := by
          simp [scan_logs, hmsome]
        rw [hfold, hlogs]
      | some tag =>
        obtain ⟨dbn, hadd⟩ : ∃ dbn, add_track meta db p = Except.ok dbn := by
          unfold add_track
          rw [hmp]
          exact ⟨_, rfl⟩
        have hmsome : (meta p).isSome = true := by rw [hmp]; rfl
        rw [hadd]
        show scan_entries meta dbn rest = _
        rw [scan_entries_eq meta rest dbn hrest]
        rw [entries_files_cons_file, if_pos haud]
        have hpf : proc_file meta db p = dbn := by
          unfold proc_file
          rw [hadd]
        have hfold : proc_files meta db ([p] ++ entries_files rest) =
            proc_files meta dbn (entries_files rest) := by
          show proc_files meta (proc_file meta db p) (entries_files rest) = _
          rw [hpf]
        have hlogs : scan_logs meta ([p] ++ entries_files rest) =
            scan_logs meta (entries_files rest) := by
          simp [scan_logs, hmsome]
        rw [hfold, hlogs]
    · rw [if_neg haud, scan_entries_eq meta rest db hrest, entries_files_cons_file,
        if_neg haud]
      rfl
  | FsEntry.dir n r es2 :: rest, db, h => by
    have h2 : entry_ok (FsEntry.dir n r es2) = true ∧ entries_ok rest = true := by
      simpa [entries_ok_cons] using h
    obtain ⟨hd, hrest⟩ := h2
    rw [scan_entries_cons_dir, scan_dir_eq meta (FsEntry.dir n r es2) db hd]
    show (match scan_entries meta
        (proc_files meta db (dir_files (FsEntry.dir n r es2))) rest with
      | Except.error err => Except.error err
      | Except.ok (db2, logs2) =>
        Except.ok (db2, scan_logs meta (dir_files (FsEntry.dir n r es2)) ++ logs2)) = _
    rw [scan_entries_eq meta rest _ hrest, entries_files_cons_dir,
      proc_files_append, scan_logs_append]
end

theorem goc_artist_keeps (db : Db) (name : String) :
    (get_or_create_artist db name).2.tracks = db.tracks ∧
    (get_or_create_artist db name).2.next_track_id = db.next_track_id := by
  unfold get_or_create_artist
  cases hf : db.artists.find? (fun r => r.name == name) <;> simp

theorem goc_album_keeps (db : Db) (title : String) (artist_id : Nat) :
    (get_or_create_album db title artist_id).2.tracks = db.tracks ∧
    (get_or_create_album db title artist_id).2.next_track_id = db.next_track_id := by
  unfold get_or_create_album
  cases hf : db.albums.find? (fun (r : AlbumRow) => r.title == title && r.artist_id == artist_id) <;> simp

theorem map_path_filter (l : List TrackRow) (p : String) :
    (l.filter (fun r => r.path != p)).map TrackRow.path =
      (l.map TrackRow.path).filter (fun q => q != p) := by
  induction l with
  | nil => rfl
  | cons r l ih =>
    by_cases h : r.path = p
    · simp [List.filter_cons, h, ih]
    · simp [List.filter_cons, h, ih]

theorem add_track_some_tracks (meta : String → Option TagData) (db : Db)
    (p : String) (tag : TagData) (h : meta p = some tag) :
    ∃ dbn, add_track meta db p = Except.ok dbn ∧
      dbn.tracks.map TrackRow.path =
        (db.tracks.map TrackRow.path).filter (fun q => q != p) ++ [p] := by
  unfold add_track
  rw [h]
  refine ⟨_, rfl, ?_⟩
  have hdb2 : (get_or_create_album
      (get_or_create_artist db (tag.artist.getD "Unknown Artist")).2
      (tag.album.getD "Unknown Album")
      (get_or_create_artist db (tag.artist.getD "Unknown Artist")).1).2.tracks = db.tracks := by
    rw [(goc_album_keeps _ _ _).1, (goc_artist_keeps _ _).1]
  show (((get_or_create_album
      (get_or_create_artist db (tag.artist.getD "Unknown Artist")).2
      (tag.album.getD "Unknown Album")
      (get_or_create_artist db (tag.artist.getD "Unknown Artist")).1).2.tracks.filter
        (fun (r : TrackRow) => r.path != p)) ++ [_]).map TrackRow.path = _
  rw [List.map_append, hdb2, map_path_filter]
  rfl

theorem proc_file_tracks_map (meta : String → Option TagData) (db : Db) (p : String) :
    (proc_file meta db p).tracks.map TrackRow.path =
      (if (meta p).isSome then
        ((db.tracks.map TrackRow.path).filter (fun q => q != p)) ++ [p]
      else db.tracks.map TrackRow.path) := by
  cases hmp : meta p with
  | none =>
    have hadd : add_track meta db p = Except.error "metadata read failed" := by
      unfold add_track
      rw [hmp]
    have hpf : proc_file meta db p = db := by
      unfold proc_file
      rw [hadd]
    rw [hpf]
    rfl
  | some tag =>
    obtain ⟨dbn, hadd, hmap⟩ := add_track_some_tracks meta db p tag hmp
    have hpf : proc_file meta db p = dbn := by
      unfold proc_file
      rw [hadd]
    rw [hpf, hmap]
    rfl

theorem proc_files_tracks_map (meta : String → Option TagData) :
    ∀ (ps : List String) (db : Db),
    (proc_files meta db ps).tracks.map TrackRow.path =
      upsert_path_list (db.tracks.map TrackRow.path) (meta_ok_paths meta ps) := by
  intro ps
  induction ps with
  | nil => intro db; rfl
  | cons p ps ih =>
    intro db
    show (proc_files meta (proc_file meta db p) ps).tracks.map TrackRow.path = _
    rw [ih (proc_file meta db p), proc_file_tracks_map]
    cases hmp : (meta p).isSome with
    | true =>
      rw [if_pos rfl]
      have hok : meta_ok_paths meta (p :: ps) = p :: meta_ok_paths meta ps := by
        simp [meta_ok_paths, hmp]
      rw [hok]
      rfl
    | false =>
      rw [if_neg (by decide)]
      have hok : meta_ok_paths meta (p :: ps) = meta_ok_paths meta ps := by
        simp [meta_ok_paths, hmp]
      rw [hok]

theorem upsert_closed : ∀ (qs L : List String), qs.Nodup →
    upsert_path_list L qs = L.filter (fun x => decide (x ∉ qs)) ++ qs := by
  intro qs
  induction qs with
  | nil =>
    intro L _
    simp [upsert_path_list]
  | cons q qs ih =>
    intro L hnd
    obtain ⟨hq, hnd2⟩ := List.nodup_cons.mp hnd
    show upsert_path_list (L.filter (fun x => x != q) ++ [q]) qs = _
    rw [ih _ hnd2, List.filter_append]
    have h1 : List.filter (fun x => decide (x ∉ qs)) [q] = [q] := by simp [hq]
    rw [h1, List.filter_filter, List.append_assoc]
    congr 1
    apply List.filter_congr
    intro x _
    by_cases hx1 : x = q <;> by_cases hx2 : x ∈ qs <;> simp [hx1, hx2]

theorem scan_entries_unreadable_abort (meta : String → Option TagData) :
    ∀ (es1 : List FsEntry) (db : Db) (n : String) (es2 rest : List FsEntry)
      (db1 : Db) (l1 : List String),
    scan_entries meta db es1 = Except.ok (db1, l1) →
    scan_entries meta db (es1 ++ FsEntry.dir n false es2 :: rest) =
      Except.error "read_dir failed" := by
  intro es1
  induction es1 with
  | nil =>
    intro db n es2 rest db1 l1 _
    show scan_entries meta db (FsEntry.dir n false es2 :: rest) = _
    rw [scan_entries_cons_dir, scan_dir_dir]
    rfl
  | cons e es1 ih =>
    intro db n es2 rest db1 l1 h
    cases e with
    | dir m r es3 =>
      rw [List.cons_append]
      rw [scan_entries_cons_dir] at h ⊢
      cases hd : scan_directory meta db (FsEntry.dir m r es3) with
      | error err =>
        rw [hd] at h
        exact absurd h (by simp)
      | ok pr =>
        obtain ⟨dbm, lm⟩ := pr
        rw [hd] at h
        have h2 : (match scan_entries meta dbm es1 with
          | Except.error err => Except.error err
          | Except.ok (db2, logs2) => Except.ok (db2, lm ++ logs2)) =
            Except.ok (db1, l1) := h
        cases hs : scan_entries meta dbm es1 with
        | error err2 =>
          rw [hs] at h2
          exact absurd h2 (by simp)
        | ok pr2 =>
          show (match scan_entries meta dbm (es1 ++ FsEntry.dir n false es2 :: rest) with
            | Except.error err => Except.error err
            | Except.ok (db2, logs2) => Except.ok (db2, lm ++ logs2)) = _
          rw [ih dbm n es2 rest pr2.1 pr2.2 (by rw [hs])]
    | file p =>
      rw [List.cons_append]
      rw [scan_entries_cons_file] at h ⊢
      by_cases haud : is_audio_file p
      · rw [if_pos haud] at h ⊢
        cases hadd : add_track meta db p with
        | error err =>
          rw [hadd] at h
          have h2 : (match scan_entries meta db es1 with
            | Except.error e2 => Except.error e2
            | Except.ok (db2, logs2) =>
              Except.ok (db2, ("Failed to add track " ++ p ++ ": " ++ err) :: logs2)) =
              Except.ok (db1, l1) := h
          cases hs : scan_entries meta db es1 with
          | error e2 =>
            rw [hs] at h2
            exact absurd h2 (by simp)
          | ok pr2 =>
            show (match scan_entries meta db (es1 ++ FsEntry.dir n false es2 :: rest) with
              | Except.error e2 => Except.error e2
              | Except.ok (db2, logs2) =>
                Except.ok (db2, ("Failed to add track " ++ p ++ ": " ++ err) :: logs2)) = _
            rw [ih db n es2 rest pr2.1 pr2.2 (by rw [hs])]
        | ok dbn =>
          rw [hadd] at h
          exact ih dbn n es2 rest db1 l1 h
      · rw [if_neg haud] at h ⊢
        exact ih db n es2 rest db1 l1 h

/-- C4 (amended): scanning the same readable directory tree twice with the
same tag reader yields the same tracks table row count and the same track
paths in the same order (the path keyed INSERT OR REPLACE never duplicates a
row), but the REPLACE deletes and re-inserts each row, so the re-scanned
tracks receive fresh AUTOINCREMENT ids rather than keeping their old ones;
id preservation is refuted by c4_rescan_changes_ids. -/
theorem c4_rescan_same_rows (meta : String → Option TagData) (t : FsEntry)
    (db1 db2 : Db) (l1 l2 : List String)
    (hok : entry_ok t = true)
    (hnd : (meta_ok_paths meta (dir_files t)).Nodup)
    (h1 : scan_directory meta emptyDb t = Except.ok (db1, l1))
    (h2 : scan_directory meta db1 t = Except.ok (db2, l2)) :
    db1.tracks.map TrackRow.path = meta_ok_paths meta (dir_files t) ∧
    db2.tracks.map TrackRow.path = db1.tracks.map TrackRow.path ∧
    db2.tracks.length = db1.tracks.length := by
  rw [scan_dir_eq meta t emptyDb hok] at h1
  rw [scan_dir_eq meta t db1 hok] at h2
  injection h1 with h1'
  injection h2 with h2'
  have hdb1 : proc_files meta emptyDb (dir_files t) = db1 := congrArg Prod.fst h1'
  have hdb2 : proc_files meta db1 (dir_files t) = db2 := congrArg Prod.fst h2'
  have hp1 : db1.tracks.map TrackRow.path = meta_ok_paths meta (dir_files t) := by
    rw [← hdb1, proc_files_tracks_map]
    show upsert_path_list [] (meta_ok_paths meta (dir_files t)) = _
    rw [upsert_closed _ _ hnd]
    rfl
  have hp2 : db2.tracks.map TrackRow.path = meta_ok_paths meta (dir_files t) := by
    rw [← hdb2, proc_files_tracks_map, hp1, upsert_closed _ _ hnd]
    have hfil : (meta_ok_paths meta (dir_files t)).filter
        (fun x => decide (x ∉ meta_ok_paths meta (dir_files t))) = [] := by
      apply List.filter_eq_nil_iff.mpr
      intro a ha
      simp [ha]
    rw [hfil]
    rfl
  refine ⟨hp1, by rw [hp2, hp1], ?_⟩
  have g1 := congrArg List.length hp1
  have g2 := congrArg List.length hp2
  rw [List.length_map] at g1 g2
  omega

/-- Witness for c4_rescan_same_rows on the concrete one file library. -/
theorem c4_rescan_same_rows_witness :
    exDb1.tracks.map TrackRow.path = meta_ok_paths exMeta (dir_files exTree) ∧
    exDb2.tracks.map TrackRow.path = exDb1.tracks.map TrackRow.path ∧
    exDb2.tracks.length = exDb1.tracks.length :=
  c4_rescan_same_rows exMeta exTree exDb1 exDb2 [] [] rfl (by decide) rfl rfl

/-- C4 (counterexample): scanning the same one file directory twice does not
keep the track id: the row for music/a.mp3 has id 1 after the first scan and
id 2 after the second, because INSERT OR REPLACE deletes the conflicting row
and inserts a fresh one with a new AUTOINCREMENT id. -/
theorem c4_rescan_changes_ids :
    exDb1.tracks.map TrackRow.id = [1] ∧
    exDb2.tracks.map TrackRow.id = [2] ∧
    exDb2.tracks.map TrackRow.id ≠ exDb1.tracks.map TrackRow.id :=
  ⟨rfl, rfl, by decide⟩

/-- C7 (amended): a scan of a tree whose directories are all readable always
completes: every audio file is processed independently, a per file metadata
failure only contributes a log line while its siblings are still scanned, and
the catalog is the fold of the per file upserts.  But a directory level error
does not abort only that subtree: as soon as an unreadable directory entry is
reached, the whole scan returns the error and the remaining siblings are
never scanned, because the question mark operator propagates the error
through every enclosing recursive call. -/
theorem c7_scan_error_behaviour :
    (∀ (meta : String → Option TagData) (db : Db) (es : List FsEntry),
      entries_ok es = true →
      scan_entries meta db es =
        Except.ok (proc_files meta db (entries_files es),
          scan_logs meta (entries_files es))) ∧
    (∀ (meta : String → Option TagData) (db : Db) (es1 : List FsEntry) (n : String)
      (es2 rest : List FsEntry) (db1 : Db) (l1 : List String),
      scan_entries meta db es1 = Except.ok (db1, l1) →
      scan_entries meta db (es1 ++ FsEntry.dir n false es2 :: rest) =
        Except.error "read_dir failed") :=
  ⟨fun meta db es h => scan_entries_eq meta es db h,
   fun meta db es1 n es2 rest db1 l1 h =>
     scan_entries_unreadable_abort meta es1 db n es2 rest db1 l1 h⟩

/-- Witness for c7_scan_error_behaviour: a readable one file directory scans
to the fold result, and placing an unreadable directory before a perfectly
readable audio file makes the whole scan return the read error. -/
theorem c7_scan_error_witness :
    scan_entries exMeta emptyDb [FsEntry.file "music/a.mp3"] =
      Except.ok (proc_files exMeta emptyDb (entries_files [FsEntry.file "music/a.mp3"]),
        scan_logs exMeta (entries_files [FsEntry.file "music/a.mp3"])) ∧
    scan_entries exMeta7 emptyDb
      ([] ++ FsEntry.dir "root/locked" false [] :: [FsEntry.file "root/good.mp3"]) =
      Except.error "read_dir failed" :=
  ⟨c7_scan_error_behaviour.1 exMeta emptyDb [FsEntry.file "music/a.mp3"] rfl,
   c7_scan_error_behaviour.2 exMeta7 emptyDb [] "root/locked" []
     [FsEntry.file "root/good.mp3"] emptyDb [] rfl⟩

/-- C7 (counterexample): in a directory whose first entry is an unreadable
subdirectory and whose second entry is a readable audio file, the scan
returns the directory read error instead of completing: the sibling file is
never added, refuting the claim that only the unreadable subtree is aborted
while the rest of the scan completes. -/
theorem c7_subtree_error_aborts_scan :
    scan_directory exMeta7 emptyDb exTree7 = Except.error "read_dir failed" ∧
    exMeta7 "root/good.mp3" = some exTag :=
  ⟨rfl, rfl⟩

/-- C10: a file is treated as audio exactly when its extension is one of the
five lowercase strings mp3, flac, wav, m4a, ogg; the comparison is case
sensitive, so SONG.MP3 is not audio and a file with no extension is not
audio, and the scan skips such files entirely even when their metadata would
read fine. -/
theorem c10_audio_extension_filter :
    (∀ name : String, is_audio_file name = true ↔
      (pathExt name = some "mp3" ∨ pathExt name = some "flac" ∨
        pathExt name = some "wav" ∨ pathExt name = some "m4a" ∨
        pathExt name = some "ogg")) ∧
    is_audio_file "SONG.MP3" = false ∧
    is_audio_file "song" = false ∧
    is_audio_file "song.mp3" = true ∧
    scan_directory meta10 emptyDb tree10 = Except.ok (emptyDb, []) := by
  refine ⟨?_, by decide, by decide, by decide, rfl⟩
  intro name
  unfold is_audio_file
  cases h : pathExt name with
  | none => simp
  | some e => split <;> simp_all
